import Mathlib

/-!
# Verification of the quiz/exam engine (`src/components/QuizBlock.vue`)

Shallow embedding of the client-side quiz engine: session state, the
controller operations (`prepareQuestions`, `startTest`, `nextQuestion`,
`prevQuestion`, `recordTime`, `checkFocus`, `updateTimer`, `finishTest`,
and the `onMounted` resume logic), and the grading algorithms
(hash-based multiple choice, SQL result-set comparison).

Conventions of the embedding:
* JavaScript timestamps (`Date.now()`) and millisecond durations are `Int`.
* The embedded SQL engine (PGlite) is an external collaborator; it is
  abstracted as an oracle `Env.query` returning the row list of a statement
  executed on a fresh database after the given setup statements (or `none`
  when the statement raises), plus `Env.runSetup` telling whether the
  setup script itself succeeds.  `EXCEPT ALL` of the engine is modelled by
  `exceptAll`, the duplicate-preserving list difference.
* `crypto.subtle.digest` (SHA-256) is abstracted as an arbitrary
  deterministic function `Env.hash : String → String`.
* JavaScript objects used as string-keyed records are association lists
  (`getA`/`setA`), preserving insertion order like JS objects do.
* `Math.random`-driven `sort` shuffles are abstracted as explicit
  shuffle-function parameters; theorems assume they permute their input.
-/

namespace Books

/-- A result row of a SQL query: the list of its column values.
Values are modelled as integers (the comparison logic only needs
decidable equality of rows). -/
abbrev Row := List Int

/-- A multiple-choice option, `{ id, text }` in the question JSON. -/
structure Opt where
  id : String
  text : String
deriving DecidableEq, Repr

/-- One question of a question set.  Mirrors the untyped question objects of
the JSON document: `type` discriminates `"sql-select"` from multiple
choice; `isCorrect` is the field written into the object by `finishTest`
(absent before grading, modelled as `false`). -/
structure Question where
  id : String
  type : String
  text : String
  points : Int
  options : List Opt
  correct_hash : String
  correct_query : String
  init_sql : List String
  sort_required : Bool
  isCorrect : Bool
deriving DecidableEq, Repr

/-- The answer stored for a question: a SQL text for `sql-select`
questions, a list of selected option ids for multiple choice. -/
inductive Answer where
  | sql (s : String)
  | mc (ids : List String)
deriving DecidableEq, Repr

/-- The question-set document (`testData`). `time_limit` and
`max_cheat_attempts` are optional fields; `grading` maps grade keys to
minimum percentages. -/
structure TestData where
  title : String
  time_limit : Option Int
  max_cheat_attempts : Option Nat
  grading : List (String × ℚ)
  questions : List Question
  init_sql : List String
deriving Repr

/-- The persisted session state (`state` ref of the component). -/
structure SessionState where
  questions : List Question
  answers : List (String × Answer)
  currentIndex : Nat
  startTime : Int
  endTime : Int
  questionTimings : List (String × Int)
  lastQuestionEntryTime : Int
  cheatAttempts : Nat
  cheatLogs : List String
  score : Int
  maxScore : Int
  grade : Int
  isBlocked : Bool
deriving DecidableEq, Repr

/-- Component status (`status` ref). -/
inductive Status where
  | INIT | LOADING | READY | IN_PROGRESS | COMPLETED | BLOCKED | COMPLETED_VIEW
deriving DecidableEq, Repr

/-- The full controller state: status, session state, whether the
IntegrityMonitor listeners (`blur`/`visibilitychange`) are attached,
whether the 1-second timer interval is active, and the displayed
remaining time (`timeLeft` ref). -/
structure Ctrl where
  status : Status
  st : SessionState
  listeners : Bool
  timerOn : Bool
  timeLeft : String
deriving DecidableEq, Repr

/-- External capabilities: the SHA-256 digest and the embedded SQL engine.
`query setup stmt` is the row list produced by `stmt` on a fresh database
on which `setup` ran, `none` if the statement raises; `runSetup setup`
tells whether the setup script runs without error. -/
structure Env where
  hash : String → String
  runSetup : List String → Bool
  query : List String → String → Option (List Row)

/-! ## Association-list primitives for JS string-keyed records -/

/-- Lookup in a string-keyed record (JS `obj[k]`, `none` = `undefined`). -/
def getA {α : Type} : List (String × α) → String → Option α
  | [], _ => none
  | (k', v) :: rest, k => if k' = k then some v else getA rest k

/-- Lookup with a default value. -/
def getAD {α : Type} (m : List (String × α)) (k : String) (d : α) : α :=
  (getA m k).getD d

/-- Record update (JS `obj[k] = v`): replaces the binding in place, or
appends a new one, preserving insertion order. -/
def setA {α : Type} : List (String × α) → String → α → List (String × α)
  | [], k, v => [(k, v)]
  | (k', v') :: rest, k, v =>
    if k' = k then (k, v) :: rest else (k', v') :: setA rest k v

/-! ## Small helpers from the source -/

/-- `testData.time_limit || 20`: the configured limit in minutes, with a
falsy value (absent or `0`) replaced by 20. -/
def limitMinutes (td : TestData) : Int :=
  match td.time_limit with
  | none => 20
  | some n => if n = 0 then 20 else n

/-- The time limit in milliseconds (`limitMinutes * 60 * 1000`). -/
def limitMs (td : TestData) : Int :=
  limitMinutes td * 60 * 1000

/-- `testData.max_cheat_attempts` with JS truthiness: `0` or absent means
"no limit configured". -/
def maxCheat (td : TestData) : Option Nat :=
  match td.max_cheat_attempts with
  | none => none
  | some n => if n = 0 then none else some n

/-- `padStart(2, "0")` of a rendered number. -/
def pad2 (n : Int) : String :=
  let s := toString n
  if s.length < 2 then "0" ++ s else s

/-- The `mm:ss` rendering of a positive remaining time in milliseconds
(`Math.floor(remaining / 60000)` minutes, `Math.floor((remaining % 60000)
/ 1000)` seconds). -/
def fmtRemaining (remaining : Int) : String :=
  pad2 (remaining / 60000) ++ ":" ++ pad2 (remaining % 60000 / 1000)

/-- The violation log line of `checkFocus`.  The source renders
`new Date().toLocaleTimeString()`; the locale rendering of the clock is
external, so the model renders the timestamp itself. -/
def cheatLogLine (now : Int) : String :=
  "Попытка списывания: " ++ toString now

/-- JavaScript `String.prototype.trim`: drop leading and trailing
whitespace (computed on the character list). -/
def jsTrim (s : String) : String :=
  String.mk (((s.data.dropWhile Char.isWhitespace).reverse.dropWhile Char.isWhitespace).reverse)

/-- `replace(/;$/, "")`: strip one trailing semicolon. -/
def stripSemi (s : String) : String :=
  match s.data.reverse with
  | ';' :: rest => String.mk rest.reverse
  | _ => s

/-- Code-unit comparison of two character lists: the lexicographic order
JavaScript's default `Array.sort` applies to strings. -/
def charListLe : List Char → List Char → Bool
  | [], _ => true
  | _ :: _, [] => false
  | a :: as, b :: bs =>
    if a.toNat < b.toNat then true
    else if b.toNat < a.toNat then false
    else charListLe as bs

/-- The string order used by the JS default sort. -/
def jsLe (a b : String) : Prop := charListLe a.data b.data = true

instance : DecidableRel jsLe := fun a b =>
  inferInstanceAs (Decidable (charListLe a.data b.data = true))

/-- JavaScript `parseInt` on the (trimmed, optionally signed) decimal
grade keys.  A key with no leading digits gives `NaN` in JS; the model
collapses that unreachable-for-numeric-keys case to `0`. -/
def parseIntJs (s : String) : Int :=
  let t := s.toList.dropWhile Char.isWhitespace
  let signed : Int × List Char :=
    match t with
    | '-' :: rest => (-1, rest)
    | '+' :: rest => (1, rest)
    | _ => (1, t)
  let ds := signed.2.takeWhile Char.isDigit
  if ds = [] then 0
  else signed.1 * (ds.foldl (fun n c => 10 * n + (c.toNat - 48)) (0 : Nat) : Int)

/-- Multiset difference: the semantics of SQL `EXCEPT ALL` of the
external engine (`(a) EXCEPT ALL (b)` keeps, for every row, the
occurrences of `a` left after cancelling one occurrence of `b` each).
Modelled from the spec: the embedded SQL execution engine is an external
collaborator, only its `EXCEPT ALL` row counting is relied upon. -/
def exceptAll {α : Type} [DecidableEq α] : List α → List α → List α
  | xs, [] => xs
  | xs, y :: ys => exceptAll (xs.erase y) ys

/-! ## Grading (`finishTest` per-question logic) -/

/-- Grading of one SQL answer (`finishTest`, `sql-select` branch), given
the raw stored answer text.  Follows the source: empty/whitespace answer
is incorrect without execution; both texts are trimmed and lose one
trailing `;`; a failing setup script or a failing student statement makes
the question incorrect (the source reaches these via thrown exceptions
swallowed by the per-question `catch`); `extraCount`/`missingCount` are
the `EXCEPT ALL` row counts in both directions; on `sort_required`, the
two row sequences are additionally compared for exact order. -/
def gradeSqlRaw (env : Env) (q : Question) (raw : String) : Bool :=
  if jsTrim raw = "" then false
  else
    let student := stripSemi (jsTrim raw)
    if env.runSetup q.init_sql then
      match env.query q.init_sql student with
      | none => false
      | some sRows =>
        let correct := stripSemi (jsTrim q.correct_query)
        match env.query q.init_sql correct with
        | none => false
        | some rRows =>
          let extraCount := (exceptAll sRows rRows).length
          let missingCount := (exceptAll rRows sRows).length
          let dataCorrect := extraCount = 0 && missingCount = 0
          if dataCorrect && q.sort_required then sRows == rRows else dataCorrect
    else false

/-- Grading of one multiple-choice answer: sort the selected ids
lexicographically (JS default `Array.sort`), join with `","`, digest, and
compare with the question's `correct_hash`. -/
def gradeMc (env : Env) (q : Question) (ids : List String) : Bool :=
  let sorted := ids.insertionSort jsLe
  env.hash (String.intercalate "," sorted) == q.correct_hash

/-- `state.answers[q.id] || []` of the multiple-choice branch: a missing
answer and the falsy empty string both yield `[]`. -/
def answerOrEmptyList : Option Answer → Answer
  | none => .mc []
  | some (.sql s) => if s = "" then .mc [] else .sql s
  | some a => a

/-- Grading of one question of either kind.  For `sql-select`, a missing
answer is incorrect (`!studentSql`), and a non-string answer makes
`.trim` throw, caught by the per-question `catch` — both are `false`.
For multiple choice, `Array.isArray` failing (a string answer) is
incorrect. -/
def gradeQuestion (env : Env) (ans : Option Answer) (q : Question) : Bool :=
  if q.type == "sql-select" then
    match ans with
    | some (.sql raw) => gradeSqlRaw env q raw
    | _ => false
  else
    match answerOrEmptyList ans with
    | .mc ids => gradeMc env q ids
    | .sql _ => false

/-- `percent >= grading[key]` lookup: keys come from the object itself,
so the default is never read on real data. -/
def gradingThreshold (grading : List (String × ℚ)) (k : String) : ℚ :=
  getAD grading k 0

/-- The final grade: walk `Object.keys(grading).sort().reverse()` (keys
in descending lexicographic order) and take the first whose threshold the
percentage reaches; default grade 2. -/
def computeGrade (grading : List (String × ℚ)) (percent : ℚ) : Int :=
  let keys := (List.insertionSort jsLe (grading.map Prod.fst)).reverse
  match keys.find? (fun k => decide (gradingThreshold grading k ≤ percent)) with
  | some k => parseIntJs k
  | none => 2

/-! ## Controller operations -/

/-- `recordTime`: add the time spent since entering the current question
to its timing bucket.  The source indexes `questions[currentIndex]`
unconditionally (an out-of-range index would throw; that situation is
unreachable during a session and is modelled as the identity). -/
def recordTime (s : SessionState) (now : Int) : SessionState :=
  match s.questions.get? s.currentIndex with
  | some q =>
    let spent := now - s.lastQuestionEntryTime
    { s with questionTimings := setA s.questionTimings q.id (getAD s.questionTimings q.id 0 + spent) }
  | none => s

/-- `nextQuestion`: record time, then advance if not at the last
question, stamping a fresh entry time only when the index moved. -/
def nextQuestion (s : SessionState) (now : Int) : SessionState :=
  if (recordTime s now).currentIndex < (recordTime s now).questions.length - 1 then
    { recordTime s now with
      currentIndex := (recordTime s now).currentIndex + 1,
      lastQuestionEntryTime := now }
  else recordTime s now

/-- `prevQuestion`: record time, then go back if not at the first
question, stamping a fresh entry time only when the index moved. -/
def prevQuestion (s : SessionState) (now : Int) : SessionState :=
  if 0 < (recordTime s now).currentIndex then
    { recordTime s now with
      currentIndex := (recordTime s now).currentIndex - 1,
      lastQuestionEntryTime := now }
  else recordTime s now

/-- `checkFocus`: while in progress, a hidden/unfocused document counts a
violation (one log line, counter + 1); reaching the configured maximum
blocks the test (lockout, `endTime` stamped, listeners detached),
otherwise only a warning is shown.  `violation` stands for
`document.visibilityState === "hidden" || !document.hasFocus()`. -/
def checkFocus (td : TestData) (c : Ctrl) (now : Int) (violation : Bool) : Ctrl :=
  if c.status = .IN_PROGRESS then
    if violation then
      match maxCheat td with
      | some m =>
        if m ≤ c.st.cheatAttempts + 1 then
          { c with
            st := { c.st with
              cheatAttempts := c.st.cheatAttempts + 1,
              cheatLogs := c.st.cheatLogs ++ [cheatLogLine now],
              isBlocked := true, endTime := now },
            status := .BLOCKED, listeners := false }
        else
          { c with st := { c.st with
              cheatAttempts := c.st.cheatAttempts + 1,
              cheatLogs := c.st.cheatLogs ++ [cheatLogLine now] } }
      | none =>
        { c with st := { c.st with
            cheatAttempts := c.st.cheatAttempts + 1,
            cheatLogs := c.st.cheatLogs ++ [cheatLogLine now] } }
    else c
  else c

/-- `finishTest`: stop the interval, accumulate the final timing bucket,
detach the listeners, stamp `endTime`, grade every selected question in
order (writing `isCorrect` into the question objects), sum the points of
correct questions, compute the percentage and grade, and show the
report. -/
def finishTest (env : Env) (td : TestData) (c : Ctrl) (now : Int) : Ctrl :=
  let st := recordTime c.st now
  let graded := st.questions.map fun q =>
    { q with isCorrect := gradeQuestion env (getA st.answers q.id) q }
  let totalScore : Int := graded.foldl (fun t q => if q.isCorrect then t + q.points else t) 0
  let percent := (totalScore : ℚ) / (st.maxScore : ℚ) * 100
  { status := .COMPLETED_VIEW,
    st := { st with
      endTime := now,
      questions := graded,
      score := totalScore,
      grade := computeGrade td.grading percent },
    listeners := false,
    timerOn := false,
    timeLeft := c.timeLeft }

/-- `updateTimer` (one timer tick): only acts in progress; recomputes the
remaining time from the stored `startTime`, clamps the display to
`"00:00"` and forces `finishTest` when it is exhausted, otherwise renders
`mm:ss`. -/
def updateTimer (env : Env) (td : TestData) (c : Ctrl) (now : Int) : Ctrl :=
  if c.status = .IN_PROGRESS then
    let remaining := limitMs td - (now - c.st.startTime)
    if remaining ≤ 0 then
      finishTest env td { c with timeLeft := "00:00" } now
    else
      { c with timeLeft := fmtRemaining remaining }
  else c

/-- `startTest`: stamp `startTime` and the first question-entry time,
switch to in progress, attach the cheat listeners, run one immediate
timer update and start the interval (the interval stays installed even if
that immediate update already expired the session, as in the source). -/
def startTest (env : Env) (td : TestData) (c : Ctrl) (now : Int) : Ctrl :=
  let c := { c with
    st := { c.st with startTime := now, lastQuestionEntryTime := now },
    status := .IN_PROGRESS,
    listeners := true }
  { updateTimer env td c now with timerOn := true }

/-! ## Mounting: fresh start and resume -/

/-- `pickRequired`: the required-ids pass of `prepareQuestions` — for
each required id in order, move the first matching question from the pool
into the selection (ids without a match are skipped silently). -/
def pickRequired : List String → List Question → List Question × List Question
  | [], pool => ([], pool)
  | id :: ids, pool =>
    match pool.find? (fun q => q.id == id) with
    | some q =>
      let res := pickRequired ids (pool.eraseP (fun q => q.id == id))
      (q :: res.1, res.2)
    | none => pickRequired ids pool

/-- The selection before the final shuffle: the matched required
questions, topped up (`needed = count - selected.length; if (needed > 0)
... pool.slice(0, needed)`) from the shuffled remainder. -/
def selectedFor (sh1 : List Question → List Question) (td : TestData)
    (requiredIds : List String) (count : Nat) : List Question :=
  if (pickRequired requiredIds td.questions).1.length < count then
    (pickRequired requiredIds td.questions).1 ++
      (sh1 (pickRequired requiredIds td.questions).2).take
        (count - (pickRequired requiredIds td.questions).1.length)
  else (pickRequired requiredIds td.questions).1

/-- The per-question initialisation step of `prepareQuestions`'s
`forEach`: default answer, zero timing bucket, `maxScore += points`. -/
def prepInit (st : SessionState) (q : Question) : SessionState :=
  { st with
    answers := setA st.answers q.id (if q.type == "sql-select" then .sql "" else .mc []),
    questionTimings := setA st.questionTimings q.id 0,
    maxScore := st.maxScore + q.points }

/-- `prepareQuestions`: pick the required questions, shuffle the rest,
top the selection up to `count`, shuffle the concatenation, then
initialise per-question answers and timing buckets, accumulate
`maxScore`, and shuffle each question's options.  The `Math.random`
comparator shuffles are the function parameters `sh1` (pool), `sh2`
(final selection) and `shOpts` (options). -/
def prepareQuestions (sh1 sh2 : List Question → List Question)
    (shOpts : List Opt → List Opt) (td : TestData) (requiredIds : List String)
    (count : Nat) (s : SessionState) : SessionState :=
  let selected := sh2 (selectedFor sh1 td requiredIds count)
  selected.foldl prepInit
    { s with questions := selected.map fun q => { q with options := shOpts q.options } }

/-- The initial `state` ref value. -/
def initialState : SessionState where
  questions := []
  answers := []
  currentIndex := 0
  startTime := 0
  endTime := 0
  questionTimings := []
  lastQuestionEntryTime := 0
  cheatAttempts := 0
  cheatLogs := []
  score := 0
  maxScore := 0
  grade := 0
  isBlocked := false

/-- `onMounted`, no saved session: prepare a fresh selection and go to
`READY`. -/
def mountFresh (sh1 sh2 : List Question → List Question)
    (shOpts : List Opt → List Opt) (td : TestData) (requiredIds : List String)
    (count : Nat) : Ctrl :=
  { status := .READY,
    st := prepareQuestions sh1 sh2 shOpts td requiredIds count initialState,
    listeners := false, timerOn := false, timeLeft := "" }

/-- `onMounted`, saved session present: retro-block when the stored
violation counter already reaches the configured maximum, then dispatch
on the stored state — blocked or finished sessions show the completed
box; a started session resumes in progress (timer recomputed from the
stored `startTime`, interval restarted); otherwise `READY`.  Note that no
branch attaches the cheat listeners.  The retro-block step
(`max_cheat_attempts && cheatAttempts >= max_cheat_attempts`) sets the
lockout flag without touching `endTime`. -/
def retroBlock (td : TestData) (saved : SessionState) : SessionState :=
  match maxCheat td with
  | some m => if m ≤ saved.cheatAttempts then { saved with isBlocked := true } else saved
  | none => saved

/-- The status dispatch of the saved-session mount path. -/
def mountDispatch (env : Env) (td : TestData) (st : SessionState) (now : Int) : Ctrl :=
  if st.isBlocked then
    { status := .COMPLETED, st := st, listeners := false, timerOn := false, timeLeft := "" }
  else if 0 < st.endTime then
    { status := .COMPLETED, st := st, listeners := false, timerOn := false, timeLeft := "" }
  else if 0 < st.startTime then
    { updateTimer env td
        { status := .IN_PROGRESS, st := st, listeners := false, timerOn := false, timeLeft := "" }
        now
      with timerOn := true }
  else
    { status := .READY, st := st, listeners := false, timerOn := false, timeLeft := "" }

def mountSaved (env : Env) (td : TestData) (saved : SessionState) (now : Int) : Ctrl :=
  mountDispatch env td (retroBlock td saved) now

/-! ## Reachable controller states

The states the controller can be in under one fixed question-set
document: a fresh mount, a mount that rehydrates a state this controller
previously persisted (the deep watcher persists `state` after every
mutation, so every reachable session state is a possible stored
snapshot), and the event handlers, guarded as in the component (buttons
are only rendered in the status they act on; `checkFocus` and
`updateTimer` guard themselves). -/
inductive Reachable (env : Env) (td : TestData) : Ctrl → Prop where
  | fresh (sh1 sh2 : List Question → List Question) (shOpts : List Opt → List Opt)
      (reqIds : List String) (count : Nat) :
      Reachable env td (mountFresh sh1 sh2 shOpts td reqIds count)
  | mount (c : Ctrl) (now : Int) : Reachable env td c → 1 ≤ now →
      Reachable env td (mountSaved env td c.st now)
  | start (c : Ctrl) (now : Int) : Reachable env td c → c.status = .READY → 1 ≤ now →
      Reachable env td (startTest env td c now)
  | next (c : Ctrl) (now : Int) : Reachable env td c → c.status = .IN_PROGRESS →
      Reachable env td { c with st := nextQuestion c.st now }
  | prev (c : Ctrl) (now : Int) : Reachable env td c → c.status = .IN_PROGRESS →
      Reachable env td { c with st := prevQuestion c.st now }
  | focus (c : Ctrl) (now : Int) (violation : Bool) : Reachable env td c → 1 ≤ now →
      Reachable env td (checkFocus td c now violation)
  | finish (c : Ctrl) (now : Int) : Reachable env td c → c.status = .IN_PROGRESS → 1 ≤ now →
      Reachable env td (finishTest env td c now)
  | tick (c : Ctrl) (now : Int) : Reachable env td c → 1 ≤ now →
      Reachable env td (updateTimer env td c now)
  | showBlocked (c : Ctrl) : Reachable env td c → c.status = .COMPLETED →
      c.st.isBlocked = true → Reachable env td { c with status := .BLOCKED }
  | showReport (c : Ctrl) : Reachable env td c → c.status = .COMPLETED →
      c.st.isBlocked = false → Reachable env td { c with status := .COMPLETED_VIEW }
  | closeReport (c : Ctrl) : Reachable env td c → c.status = .COMPLETED_VIEW →
      Reachable env td { c with status := .COMPLETED }
  | closeBlocked (c : Ctrl) : Reachable env td c → c.status = .BLOCKED →
      Reachable env td { c with status := .COMPLETED }

/-! ## Concrete data used by witnesses and counterexamples -/

/-- A concrete capability bundle: identity digest, always-succeeding
setup, and a two-statement table of query results. -/
def demoEnv : Env where
  hash := fun s => s
  runSetup := fun _ => true
  query := fun _ stmt =>
    if stmt = "SELECT v FROM t" then some [[1], [1], [2]]
    else if stmt = "SELECT w FROM t" then some [[1], [2], [2]]
    else if stmt = "SELECT 1" then some [[1]]
    else none

/-- A concrete SQL question whose reference result is the rows
`{1, 2, 2}`. -/
def demoSqlQ : Question where
  id := "q1"
  type := "sql-select"
  text := "demo"
  points := 1
  options := []
  correct_hash := ""
  correct_query := "SELECT w FROM t"
  init_sql := []
  sort_required := false
  isCorrect := false

/-- A concrete multiple-choice question worth 10 points whose correct
digest (under the identity digest of `demoEnv`) is `"a,b"`. -/
def demoMcQ : Question where
  id := "q1"
  type := "multiple-choice"
  text := "demo"
  points := 10
  options := [⟨"a", "first"⟩, ⟨"b", "second"⟩, ⟨"c", "third"⟩]
  correct_hash := "a,b"
  correct_query := ""
  init_sql := []
  sort_required := false
  isCorrect := false

/-- A concrete question set: 20-minute limit, no cheat limit, thresholds
3/4/5, one multiple-choice question. -/
def demoTd : TestData where
  title := "demo"
  time_limit := none
  max_cheat_attempts := none
  grading := [("3", 60), ("4", 75), ("5", 90)]
  questions := [demoMcQ]
  init_sql := []

/-! ## Basic lemmas about the embedding -/

theorem charListLe_total (a b : List Char) : charListLe a b = true ∨ charListLe b a = true := by
  induction a generalizing b with
  | nil => left; rfl
  | cons x xs ih =>
    cases b with
    | nil => right; rfl
    | cons y ys =>
      rcases Nat.lt_trichotomy x.toNat y.toNat with h | h | h
      · left; simp [charListLe, h]
      · have hyx : ¬ y.toNat < x.toNat := by omega
        have hxy : ¬ x.toNat < y.toNat := by omega
        rcases ih ys with h' | h'
        · left; simp [charListLe, hxy, hyx, h']
        · right; simp [charListLe, hxy, hyx, h']
      · right; simp [charListLe, h]

theorem charListLe_trans (a b c : List Char) (hab : charListLe a b = true)
    (hbc : charListLe b c = true) : charListLe a c = true := by
  induction a generalizing b c with
  | nil => rfl
  | cons x xs ih =>
    cases b with
    | nil => simp [charListLe] at hab
    | cons y ys =>
      cases c with
      | nil => simp [charListLe] at hbc
      | cons z zs =>
        simp only [charListLe] at hab hbc ⊢
        rcases Nat.lt_trichotomy x.toNat z.toNat with h | h | h
        · simp [h]
        · have hxz : ¬ x.toNat < z.toNat := by omega
          have hzx : ¬ z.toNat < x.toNat := by omega
          simp only [if_neg hxz, if_neg hzx]
          by_cases hxy : x.toNat < y.toNat
          · exfalso
            have hzy : z.toNat < y.toNat := by omega
            simp [show ¬ y.toNat < z.toNat by omega, hzy] at hbc
          · by_cases hyx : y.toNat < x.toNat
            · exfalso
              simp [hxy, hyx] at hab
            · have h1 : ¬ y.toNat < z.toNat := by omega
              have h2 : ¬ z.toNat < y.toNat := by omega
              simp only [if_neg hxy, if_neg hyx] at hab
              simp only [if_neg h1, if_neg h2] at hbc
              exact ih ys zs hab hbc
        · exfalso
          by_cases hxy : x.toNat < y.toNat
          · have hzy : z.toNat < y.toNat := by omega
            simp [show ¬ y.toNat < z.toNat by omega, hzy] at hbc
          · by_cases hyx : y.toNat < x.toNat
            · simp [hxy, hyx] at hab
            · have hzy : z.toNat < y.toNat := by omega
              simp [show ¬ y.toNat < z.toNat by omega, hzy] at hbc

theorem charListLe_antisymm (a b : List Char) (hab : charListLe a b = true)
    (hba : charListLe b a = true) : a = b := by
  induction a generalizing b with
  | nil =>
    cases b with
    | nil => rfl
    | cons y ys => simp [charListLe] at hba
  | cons x xs ih =>
    cases b with
    | nil => simp [charListLe] at hab
    | cons y ys =>
      simp only [charListLe] at hab hba
      split_ifs at hab hba with h1 h2
      · omega
      · have hxy : x.toNat = y.toNat := by omega
        have hc : x = y := by
          have h4 := congrArg Char.ofNat hxy
          rwa [Char.ofNat_toNat, Char.ofNat_toNat] at h4
        subst hc
        rw [ih ys hab hba]

instance : IsTotal String jsLe := ⟨fun a b => charListLe_total a.data b.data⟩

instance : IsTrans String jsLe :=
  ⟨fun a b c hab hbc => charListLe_trans a.data b.data c.data hab hbc⟩

instance : IsAntisymm String jsLe :=
  ⟨fun a b hab hba => by
    cases a with
    | mk da =>
      cases b with
      | mk db => exact congrArg String.mk (charListLe_antisymm da db hab hba)⟩

theorem exceptAll_self {α : Type} [DecidableEq α] (l : List α) : exceptAll l l = [] := by
  induction l with
  | nil => rfl
  | cons a as ih =>
    show exceptAll ((a :: as).erase a) as = []
    rw [List.erase_cons_head]
    exact ih

theorem getA_setA_same {α : Type} (m : List (String × α)) (k : String) (v : α) :
    getA (setA m k v) k = some v := by
  induction m with
  | nil => simp [setA, getA]
  | cons p rest ih =>
    by_cases h : p.1 = k
    · simp [setA, h, getA]
    · simp [setA, h, getA, ih]

theorem getA_setA_other {α : Type} (m : List (String × α)) (k k' : String) (v : α)
    (h : k ≠ k') : getA (setA m k v) k' = getA m k' := by
  induction m with
  | nil => simp [setA, getA, h]
  | cons p rest ih =>
    by_cases hp : p.1 = k
    · simp [setA, hp, getA, h]
    · simp [setA, hp, getA, ih]

theorem recordTime_questions (s : SessionState) (now : Int) :
    (recordTime s now).questions = s.questions := by
  unfold recordTime
  cases s.questions.get? s.currentIndex <;> rfl

theorem recordTime_answers (s : SessionState) (now : Int) :
    (recordTime s now).answers = s.answers := by
  unfold recordTime
  cases s.questions.get? s.currentIndex <;> rfl

theorem recordTime_currentIndex (s : SessionState) (now : Int) :
    (recordTime s now).currentIndex = s.currentIndex := by
  unfold recordTime
  cases s.questions.get? s.currentIndex <;> rfl

theorem recordTime_lastEntry (s : SessionState) (now : Int) :
    (recordTime s now).lastQuestionEntryTime = s.lastQuestionEntryTime := by
  unfold recordTime
  cases s.questions.get? s.currentIndex <;> rfl

theorem recordTime_endTime (s : SessionState) (now : Int) :
    (recordTime s now).endTime = s.endTime := by
  unfold recordTime
  cases s.questions.get? s.currentIndex <;> rfl

theorem recordTime_startTime (s : SessionState) (now : Int) :
    (recordTime s now).startTime = s.startTime := by
  unfold recordTime
  cases s.questions.get? s.currentIndex <;> rfl

theorem recordTime_cheatAttempts (s : SessionState) (now : Int) :
    (recordTime s now).cheatAttempts = s.cheatAttempts := by
  unfold recordTime
  cases s.questions.get? s.currentIndex <;> rfl

theorem recordTime_cheatLogs (s : SessionState) (now : Int) :
    (recordTime s now).cheatLogs = s.cheatLogs := by
  unfold recordTime
  cases s.questions.get? s.currentIndex <;> rfl

theorem recordTime_maxScore (s : SessionState) (now : Int) :
    (recordTime s now).maxScore = s.maxScore := by
  unfold recordTime
  cases s.questions.get? s.currentIndex <;> rfl

theorem recordTime_isBlocked (s : SessionState) (now : Int) :
    (recordTime s now).isBlocked = s.isBlocked := by
  unfold recordTime
  cases s.questions.get? s.currentIndex <;> rfl

theorem gradeQuestion_isCorrect_irrel (env : Env) (a : Option Answer) (q : Question) (b : Bool) :
    gradeQuestion env a { q with isCorrect := b } = gradeQuestion env a q := rfl

theorem finishTest_status (env : Env) (td : TestData) (c : Ctrl) (now : Int) :
    (finishTest env td c now).status = .COMPLETED_VIEW := rfl

theorem finishTest_timerOn (env : Env) (td : TestData) (c : Ctrl) (now : Int) :
    (finishTest env td c now).timerOn = false := rfl

theorem finishTest_listeners (env : Env) (td : TestData) (c : Ctrl) (now : Int) :
    (finishTest env td c now).listeners = false := rfl

theorem finishTest_endTime (env : Env) (td : TestData) (c : Ctrl) (now : Int) :
    (finishTest env td c now).st.endTime = now := rfl

theorem finishTest_timeLeft (env : Env) (td : TestData) (c : Ctrl) (now : Int) :
    (finishTest env td c now).timeLeft = c.timeLeft := rfl

theorem finishTest_answers (env : Env) (td : TestData) (c : Ctrl) (now : Int) :
    (finishTest env td c now).st.answers = c.st.answers := by
  show (recordTime c.st now).answers = c.st.answers
  exact recordTime_answers c.st now

theorem finishTest_maxScore (env : Env) (td : TestData) (c : Ctrl) (now : Int) :
    (finishTest env td c now).st.maxScore = c.st.maxScore := by
  show (recordTime c.st now).maxScore = c.st.maxScore
  exact recordTime_maxScore c.st now

theorem finishTest_questions (env : Env) (td : TestData) (c : Ctrl) (now : Int) :
    (finishTest env td c now).st.questions =
      (recordTime c.st now).questions.map
        (fun q => { q with isCorrect := gradeQuestion env (getA (recordTime c.st now).answers q.id) q }) :=
  rfl

theorem finishTest_score_spec (env : Env) (td : TestData) (c : Ctrl) (now : Int) :
    (finishTest env td c now).st.score =
      (finishTest env td c now).st.questions.foldl
        (fun t q => if q.isCorrect then t + q.points else t) 0 := rfl

theorem finishTest_grade_spec (env : Env) (td : TestData) (c : Ctrl) (now : Int) :
    (finishTest env td c now).st.grade =
      computeGrade td.grading
        (((finishTest env td c now).st.score : ℚ) /
          ((finishTest env td c now).st.maxScore : ℚ) * 100) := rfl

/-! ## C2: multiset (`EXCEPT ALL`) SQL comparison -/

/-- **C2.** SQL grading computes `extraCount`/`missingCount` as the two
duplicate-preserving `EXCEPT ALL` differences, the data is correct iff
both counts are 0, and student rows `{1,1,2}` against reference rows
`{1,2,2}` give `extraCount = 1`, `missingCount = 1`, grading the question
incorrect. -/
theorem sql_multiset_grading :
    (∀ (env : Env) (q : Question) (raw : String) (sRows rRows : List Row),
      jsTrim raw ≠ "" →
      env.runSetup q.init_sql = true →
      env.query q.init_sql (stripSemi (jsTrim raw)) = some sRows →
      env.query q.init_sql (stripSemi (jsTrim q.correct_query)) = some rRows →
      q.sort_required = false →
      (gradeSqlRaw env q raw = true ↔
        (exceptAll sRows rRows).length = 0 ∧ (exceptAll rRows sRows).length = 0)) ∧
    (exceptAll ([[1], [1], [2]] : List Row) [[1], [2], [2]]).length = 1 ∧
    (exceptAll ([[1], [2], [2]] : List Row) [[1], [1], [2]]).length = 1 ∧
    gradeSqlRaw demoEnv demoSqlQ "SELECT v FROM t" = false := by
  refine ⟨?_, by decide, by decide, by decide⟩
  intro env q raw sRows rRows hne hsetup hs hr hsort
  unfold gradeSqlRaw
  simp [hne, hsetup, hs, hr, hsort]

/-- Witness for C2: the general multiset equation evaluated on the
concrete `{1,1,2}` vs `{1,2,2}` grading. -/
theorem sql_multiset_grading_witness :
    gradeSqlRaw demoEnv demoSqlQ "SELECT v FROM t" = true ↔
      (exceptAll ([[1], [1], [2]] : List Row) [[1], [2], [2]]).length = 0 ∧
      (exceptAll ([[1], [2], [2]] : List Row) [[1], [1], [2]]).length = 0 :=
  sql_multiset_grading.1 demoEnv demoSqlQ "SELECT v FROM t" [[1], [1], [2]] [[1], [2], [2]]
    (by decide) rfl rfl rfl rfl

/-! ## C5: a student answer identical to the reference grades correct -/

/-- **C5.** Whenever the setup script succeeds and the (normalized)
reference query executes successfully, a student answer that is textually
identical to the reference after trimming and stripping one trailing
terminator grades correct — for either value of the order-sensitivity
flag. -/
theorem identical_query_grades_correct (env : Env) (q : Question) (raw : String)
    (hne : jsTrim raw ≠ "")
    (heq : stripSemi (jsTrim raw) = stripSemi (jsTrim q.correct_query))
    (hsetup : env.runSetup q.init_sql = true)
    (hrun : ∃ rows, env.query q.init_sql (stripSemi (jsTrim q.correct_query)) = some rows) :
    gradeSqlRaw env q raw = true := by
  obtain ⟨rows, hrows⟩ := hrun
  unfold gradeSqlRaw
  simp [hne, heq, hsetup, hrows, exceptAll_self]

/-- Witness for C5: the reference `"SELECT 1"` against the answer
`"  SELECT 1;  "` (both with `sort_required` exercised via a copy of the
question). -/
theorem identical_query_grades_correct_witness :
    gradeSqlRaw demoEnv { demoSqlQ with correct_query := "SELECT 1" } " SELECT 1; " = true ∧
    gradeSqlRaw demoEnv { demoSqlQ with correct_query := "SELECT 1", sort_required := true }
      " SELECT 1; " = true :=
  ⟨identical_query_grades_correct demoEnv { demoSqlQ with correct_query := "SELECT 1" }
      " SELECT 1; " (by decide) (by decide) rfl ⟨[[1]], rfl⟩,
    identical_query_grades_correct demoEnv
      { demoSqlQ with correct_query := "SELECT 1", sort_required := true }
      " SELECT 1; " (by decide) (by decide) rfl ⟨[[1]], rfl⟩⟩

/-! ## C8: order-independent multiple-choice digest -/

/-- **C8.** The multiple-choice digest is order-independent — any two
selections that are permutations of each other grade identically — and it
is the digest of the lexicographically sorted, comma-joined ids, the same
form from which the reference digest is computed. -/
theorem mc_hash_order_independent (env : Env) (q : Question) (ids1 ids2 : List String)
    (h : ids1.Perm ids2) :
    gradeMc env q ids1 = gradeMc env q ids2 ∧
    gradeMc env q ids1 =
      (env.hash (String.intercalate ","
        (List.insertionSort jsLe ids1)) == q.correct_hash) := by
  refine ⟨?_, rfl⟩
  unfold gradeMc
  have hsort : List.insertionSort jsLe ids1 =
      List.insertionSort jsLe ids2 :=
    List.eq_of_perm_of_sorted
      ((List.perm_insertionSort _ ids1).trans (h.trans (List.perm_insertionSort _ ids2).symm))
      (List.sorted_insertionSort _ ids1) (List.sorted_insertionSort _ ids2)
  rw [hsort]

/-! ## C6: timer expiry clamps the display and finishes exactly once -/

/-- A concrete in-progress session (one multiple-choice question answered
`{b, a}`, started at timestamp 1). -/
def demoInProgress : Ctrl where
  status := .IN_PROGRESS
  st := { initialState with
    questions := [demoMcQ]
    answers := [("q1", Answer.mc ["b", "a"])]
    questionTimings := [("q1", 0)]
    startTime := 1
    lastQuestionEntryTime := 1
    maxScore := 10 }
  listeners := true
  timerOn := true
  timeLeft := "20:00"

/-- **C6.** On a timer tick of an in-progress session whose remaining
time is exhausted, the display is clamped to `"00:00"`, the session is
force-finished (completed view, interval stopped, `endTime` stamped), and
any subsequent tick is a no-op — the forced finish fires exactly once. -/
theorem timer_expiry_clamps_and_finishes_once (env : Env) (td : TestData) (c : Ctrl) (now : Int)
    (hstat : c.status = .IN_PROGRESS)
    (hexp : limitMs td - (now - c.st.startTime) ≤ 0) :
    (updateTimer env td c now).timeLeft = "00:00" ∧
    (updateTimer env td c now).status = .COMPLETED_VIEW ∧
    (updateTimer env td c now).timerOn = false ∧
    (updateTimer env td c now).st.endTime = now ∧
    ∀ later : Int, updateTimer env td (updateTimer env td c now) later = updateTimer env td c now := by
  have h1 : updateTimer env td c now = finishTest env td { c with timeLeft := "00:00" } now := by
    unfold updateTimer
    rw [if_pos hstat, if_pos hexp]
  rw [h1]
  refine ⟨?_, finishTest_status .., finishTest_timerOn .., finishTest_endTime .., ?_⟩
  · rw [finishTest_timeLeft]
  · intro later
    unfold updateTimer
    rw [if_neg]
    rw [finishTest_status]
    intro hcontra
    exact absurd hcontra (by decide)

/-- Witness for C6: the demo session with a 20-minute limit, ticked at
timestamp `1200001` (one millisecond past expiry): display `"00:00"`,
completed, and a second tick changes nothing. -/
theorem timer_expiry_witness :
    (updateTimer demoEnv demoTd demoInProgress 1200001).timeLeft = "00:00" ∧
    (updateTimer demoEnv demoTd demoInProgress 1200001).status = .COMPLETED_VIEW ∧
    updateTimer demoEnv demoTd (updateTimer demoEnv demoTd demoInProgress 1200001) 1200002 =
      updateTimer demoEnv demoTd demoInProgress 1200001 := by
  have h := timer_expiry_clamps_and_finishes_once demoEnv demoTd demoInProgress 1200001 rfl
    (by decide)
  exact ⟨h.1, h.2.1, h.2.2.2.2 1200002⟩

/-! ## C1: a second `finish` is not a no-op -/

/-- **C1 (counterexample).** A session completed at timestamp 5 (so
`endTime > 0`) does not keep its `endTime` when `finishTest` runs again
at timestamp 9: `finishTest` has no completion guard and overwrites
`endTime` with the new clock value. -/
theorem finish_not_idempotent_counterexample :
    0 < (finishTest demoEnv demoTd demoInProgress 5).st.endTime ∧
    (finishTest demoEnv demoTd (finishTest demoEnv demoTd demoInProgress 5) 9).st.endTime ≠
      (finishTest demoEnv demoTd demoInProgress 5).st.endTime := by
  constructor
  · show (0 : Int) < 5
    decide
  · show (9 : Int) ≠ 5
    decide

/-- **C1 (amended).** Running `finishTest` again on a completed session
recomputes the identical score and grade (grading is deterministic in the
stored answers, which finishing does not change), but `endTime` is
overwritten with the time of the second invocation rather than left
unchanged. -/
theorem finish_again_same_score_new_endTime (env : Env) (td : TestData) (c : Ctrl)
    (now1 now2 : Int) (h1 : 0 < now1) :
    0 < (finishTest env td c now1).st.endTime ∧
    (finishTest env td (finishTest env td c now1) now2).st.score =
      (finishTest env td c now1).st.score ∧
    (finishTest env td (finishTest env td c now1) now2).st.grade =
      (finishTest env td c now1).st.grade ∧
    (finishTest env td (finishTest env td c now1) now2).st.endTime = now2 := by
  have hq : (finishTest env td (finishTest env td c now1) now2).st.questions =
      (finishTest env td c now1).st.questions := by
    rw [finishTest_questions env td (finishTest env td c now1) now2,
      recordTime_questions, recordTime_answers, finishTest_answers,
      finishTest_questions env td c now1, recordTime_answers, List.map_map]
    exact congrArg (fun f => List.map f (recordTime c.st now1).questions)
      (funext fun q => rfl)
  have hscore : (finishTest env td (finishTest env td c now1) now2).st.score =
      (finishTest env td c now1).st.score := by
    rw [finishTest_score_spec, finishTest_score_spec, hq]
  refine ⟨h1, hscore, ?_, rfl⟩
  rw [finishTest_grade_spec, finishTest_grade_spec, hscore, finishTest_maxScore,
    finishTest_maxScore]

/-- Witness for C1's amended statement: the concrete completed demo
session, finished again at timestamp 9. -/
theorem finish_again_same_score_new_endTime_witness :
    (finishTest demoEnv demoTd (finishTest demoEnv demoTd demoInProgress 5) 9).st.score =
      (finishTest demoEnv demoTd demoInProgress 5).st.score ∧
    (finishTest demoEnv demoTd (finishTest demoEnv demoTd demoInProgress 5) 9).st.endTime = 9 := by
  have h := finish_again_same_score_new_endTime demoEnv demoTd demoInProgress 5 9 (by decide)
  exact ⟨h.2.1, h.2.2.2⟩

/-! ## C3: resuming an in-progress session never reattaches the cheat listeners -/

theorem updateTimer_listeners_false (env : Env) (td : TestData) (c : Ctrl) (now : Int)
    (h : c.listeners = false) : (updateTimer env td c now).listeners = false := by
  unfold updateTimer
  by_cases hs : c.status = .IN_PROGRESS
  · simp only [if_pos hs]
    by_cases he : limitMs td - (now - c.st.startTime) ≤ 0
    · simp only [if_pos he, finishTest_listeners]
    · simp only [if_neg he]
      exact h
  · simp only [if_neg hs]
    exact h

theorem mountDispatch_listeners (env : Env) (td : TestData) (st : SessionState) (now : Int) :
    (mountDispatch env td st now).listeners = false := by
  unfold mountDispatch
  by_cases h1 : st.isBlocked
  · simp only [if_pos h1]
  · simp only [if_neg h1]
    by_cases h2 : (0 : Int) < st.endTime
    · simp only [if_pos h2]
    · simp only [if_neg h2]
      by_cases h3 : (0 : Int) < st.startTime
      · simp only [if_pos h3]
        exact updateTimer_listeners_false env td _ now rfl
      · simp only [if_neg h3]

theorem mountSaved_listeners (env : Env) (td : TestData) (saved : SessionState) (now : Int) :
    (mountSaved env td saved now).listeners = false :=
  mountDispatch_listeners env td (retroBlock td saved) now

/-- A persisted session state as the deep watcher stores it mid-test:
started at timestamp 1, not finished, not blocked, no violations. -/
def demoSavedActive : SessionState :=
  { initialState with
    questions := [demoMcQ]
    answers := [("q1", Answer.mc [])]
    questionTimings := [("q1", 0)]
    startTime := 1
    lastQuestionEntryTime := 1
    maxScore := 10 }

/-- **C3 (code bug).** Mounting over a persisted session with lockout
unset, `endTime = 0` and `startTime > 0` resumes directly into the
in-progress state and recomputes the remaining time from the stored
`startTime` (at timestamp 2 of a 20-minute test started at timestamp 1
the display reads `"19:59"`, not a fresh `"20:00"`), and restarts the
tick interval — but the IntegrityMonitor `blur`/`visibilitychange`
listeners are NOT reattached: no branch of the mount path calls
`addCheatListeners`, so the resumed session runs unmonitored. -/
theorem resume_without_listeners :
    (mountSaved demoEnv demoTd demoSavedActive 2).status = .IN_PROGRESS ∧
    (mountSaved demoEnv demoTd demoSavedActive 2).timeLeft = "19:59" ∧
    (mountSaved demoEnv demoTd demoSavedActive 2).timerOn = true ∧
    (mountSaved demoEnv demoTd demoSavedActive 2).listeners = false ∧
    (∀ (td : TestData) (saved : SessionState) (now : Int),
      (mountSaved demoEnv td saved now).listeners = false) :=
  ⟨by decide, by decide, by decide, by decide,
    fun td saved now => mountSaved_listeners demoEnv td saved now⟩

/-! ## C9: question navigation -/

theorem recordTime_timing_at (s : SessionState) (now : Int) (q : Question)
    (hq : s.questions.get? s.currentIndex = some q) :
    getA (recordTime s now).questionTimings q.id =
      some (getAD s.questionTimings q.id 0 + (now - s.lastQuestionEntryTime)) := by
  unfold recordTime
  rw [hq]
  exact getA_setA_same _ _ _

theorem nextQuestion_of_lt (s : SessionState) (now : Int)
    (h : s.currentIndex < s.questions.length - 1) :
    nextQuestion s now =
      { recordTime s now with
        currentIndex := s.currentIndex + 1, lastQuestionEntryTime := now } := by
  unfold nextQuestion
  rw [recordTime_currentIndex, recordTime_questions, if_pos h]

theorem nextQuestion_of_last (s : SessionState) (now : Int)
    (h : ¬ s.currentIndex < s.questions.length - 1) :
    nextQuestion s now = recordTime s now := by
  unfold nextQuestion
  rw [recordTime_currentIndex, recordTime_questions, if_neg h]

theorem prevQuestion_of_pos (s : SessionState) (now : Int) (h : 0 < s.currentIndex) :
    prevQuestion s now =
      { recordTime s now with
        currentIndex := s.currentIndex - 1, lastQuestionEntryTime := now } := by
  unfold prevQuestion
  rw [recordTime_currentIndex, if_pos h]

theorem prevQuestion_of_first (s : SessionState) (now : Int) (h : ¬ 0 < s.currentIndex) :
    prevQuestion s now = recordTime s now := by
  unfold prevQuestion
  rw [recordTime_currentIndex, if_neg h]

/-- **C9 (amended).** With the current index in range, `nextQuestion` and
`prevQuestion` first add the time elapsed since the current question was
entered to that question's timing bucket and keep the index inside
`[0, length-1]`; a fresh entry time is stamped only when the index
actually moves — at the clamped boundary (last question for `next`, first
for `prev`) the elapsed time is still accumulated but the stored entry
time is left unchanged. -/
theorem nav_timing_clamp (s : SessionState) (now : Int) (q : Question)
    (hq : s.questions.get? s.currentIndex = some q) :
    (getA (nextQuestion s now).questionTimings q.id =
      some (getAD s.questionTimings q.id 0 + (now - s.lastQuestionEntryTime))) ∧
    (nextQuestion s now).currentIndex = min (s.currentIndex + 1) (s.questions.length - 1) ∧
    (s.currentIndex + 1 ≤ s.questions.length - 1 →
      (nextQuestion s now).lastQuestionEntryTime = now) ∧
    (s.currentIndex = s.questions.length - 1 →
      (nextQuestion s now).lastQuestionEntryTime = s.lastQuestionEntryTime) ∧
    (nextQuestion s now).currentIndex < s.questions.length ∧
    (getA (prevQuestion s now).questionTimings q.id =
      some (getAD s.questionTimings q.id 0 + (now - s.lastQuestionEntryTime))) ∧
    (prevQuestion s now).currentIndex = s.currentIndex - 1 ∧
    (0 < s.currentIndex → (prevQuestion s now).lastQuestionEntryTime = now) ∧
    (s.currentIndex = 0 → (prevQuestion s now).lastQuestionEntryTime = s.lastQuestionEntryTime) ∧
    (prevQuestion s now).currentIndex < s.questions.length := by
  have hlt : s.currentIndex < s.questions.length := by
    rcases List.get?_eq_some.mp hq with ⟨h, _⟩
    exact h
  have htq := recordTime_timing_at s now q hq
  by_cases hnext : s.currentIndex < s.questions.length - 1
  · by_cases hprev : 0 < s.currentIndex
    · rw [nextQuestion_of_lt s now hnext, prevQuestion_of_pos s now hprev]
      refine ⟨htq, ?_, fun _ => rfl, fun h => absurd h (by omega), ?_, htq, rfl,
        fun _ => rfl, fun h => absurd h (by omega), ?_⟩
      · show s.currentIndex + 1 = min (s.currentIndex + 1) (s.questions.length - 1)
        omega
      · show s.currentIndex + 1 < s.questions.length
        omega
      · show s.currentIndex - 1 < s.questions.length
        omega
    · rw [nextQuestion_of_lt s now hnext, prevQuestion_of_first s now hprev]
      refine ⟨htq, ?_, fun _ => rfl, fun h => absurd h (by omega), ?_, htq, ?_,
        fun h => absurd h hprev, fun _ => recordTime_lastEntry s now, ?_⟩
      · show s.currentIndex + 1 = min (s.currentIndex + 1) (s.questions.length - 1)
        omega
      · show s.currentIndex + 1 < s.questions.length
        omega
      · rw [recordTime_currentIndex]
        omega
      · rw [recordTime_currentIndex]
        omega
  · by_cases hprev : 0 < s.currentIndex
    · rw [nextQuestion_of_last s now hnext, prevQuestion_of_pos s now hprev]
      refine ⟨htq, ?_, fun h => absurd h (by omega), fun _ => recordTime_lastEntry s now,
        ?_, htq, rfl, fun _ => rfl, fun h => absurd h (by omega), ?_⟩
      · rw [recordTime_currentIndex]
        omega
      · rw [recordTime_currentIndex]
        omega
      · show s.currentIndex - 1 < s.questions.length
        omega
    · rw [nextQuestion_of_last s now hnext, prevQuestion_of_first s now hprev]
      refine ⟨htq, ?_, fun h => absurd h (by omega), fun _ => recordTime_lastEntry s now,
        ?_, htq, ?_, fun h => absurd h hprev, fun _ => recordTime_lastEntry s now, ?_⟩
      · rw [recordTime_currentIndex]
        omega
      · rw [recordTime_currentIndex]
        omega
      · rw [recordTime_currentIndex]
        omega
      · rw [recordTime_currentIndex]
        omega

/-- **C9 (counterexample).** At the last question (where the index is
clamped), `nextQuestion` still accumulates the elapsed 400 ms into the
timing bucket but does not stamp a new entry time: the stored entry time
stays 100 instead of the current 500, so "stamp a new entry time for the
question that is current after the move" fails at the boundary. -/
theorem nav_boundary_counterexample :
    (nextQuestion { demoSavedActive with lastQuestionEntryTime := 100 } 500).lastQuestionEntryTime
      = 100 ∧
    getA (nextQuestion { demoSavedActive with lastQuestionEntryTime := 100 } 500).questionTimings
      "q1" = some 400 ∧
    (100 : Int) ≠ 500 := by
  refine ⟨?_, ?_, by decide⟩ <;> decide

/-- A two-question in-progress session state, on the first question,
entered at timestamp 10. -/
def demoTwoQ : SessionState :=
  { initialState with
    questions := [demoMcQ, { demoSqlQ with id := "q2" }]
    answers := [("q1", Answer.mc []), ("q2", Answer.sql "")]
    questionTimings := [("q1", 0), ("q2", 0)]
    startTime := 1
    lastQuestionEntryTime := 10
    maxScore := 11 }

/-- Witness for C9's amended statement: moving on from the first of two
questions at timestamp 25 accumulates 15 ms and stamps the new entry
time. -/
theorem nav_timing_clamp_witness :
    getA (nextQuestion demoTwoQ 25).questionTimings "q1" =
      some (getAD demoTwoQ.questionTimings "q1" 0 + (25 - demoTwoQ.lastQuestionEntryTime)) ∧
    (nextQuestion demoTwoQ 25).currentIndex =
      min (demoTwoQ.currentIndex + 1) (demoTwoQ.questions.length - 1) ∧
    (nextQuestion demoTwoQ 25).lastQuestionEntryTime = 25 := by
  have h := nav_timing_clamp demoTwoQ 25 demoMcQ rfl
  exact ⟨h.1, h.2.1, h.2.2.1 (by decide)⟩

/-- Witness for C8: selecting `{b, a}` and `{a, b}` hashes identically,
and the digest is the one of the sorted join `"a,b"`, which matches the
reference digest of `demoMcQ`. -/
theorem mc_hash_order_independent_witness :
    gradeMc demoEnv demoMcQ ["b", "a"] = gradeMc demoEnv demoMcQ ["a", "b"] ∧
    gradeMc demoEnv demoMcQ ["b", "a"] = (demoEnv.hash "a,b" == demoMcQ.correct_hash) := by
  have h := mc_hash_order_independent demoEnv demoMcQ ["b", "a"] ["a", "b"] (by decide)
  refine ⟨h.1, ?_⟩
  rw [h.2]
  decide

/-! ## Case-equation lemmas for `checkFocus` and `prepareQuestions` -/

theorem checkFocus_not_in_progress (td : TestData) (c : Ctrl) (now : Int) (viol : Bool)
    (h : ¬ c.status = .IN_PROGRESS) : checkFocus td c now viol = c := by
  unfold checkFocus
  rw [if_neg h]

theorem checkFocus_no_violation (td : TestData) (c : Ctrl) (now : Int) :
    checkFocus td c now false = c := by
  unfold checkFocus
  by_cases h : c.status = .IN_PROGRESS
  · rw [if_pos h]
    simp
  · rw [if_neg h]

theorem checkFocus_blocked_eq (td : TestData) (c : Ctrl) (now : Int) (m : Nat)
    (h : c.status = .IN_PROGRESS) (hmc : maxCheat td = some m)
    (hge : m ≤ c.st.cheatAttempts + 1) :
    checkFocus td c now true =
      { c with
        st := { c.st with
          cheatAttempts := c.st.cheatAttempts + 1,
          cheatLogs := c.st.cheatLogs ++ [cheatLogLine now],
          isBlocked := true, endTime := now },
        status := .BLOCKED, listeners := false } := by
  unfold checkFocus
  rw [if_pos h, hmc]
  simp only [if_pos hge, if_true]

theorem checkFocus_warn_some_eq (td : TestData) (c : Ctrl) (now : Int) (m : Nat)
    (h : c.status = .IN_PROGRESS) (hmc : maxCheat td = some m)
    (hlt : ¬ m ≤ c.st.cheatAttempts + 1) :
    checkFocus td c now true =
      { c with st := { c.st with
          cheatAttempts := c.st.cheatAttempts + 1,
          cheatLogs := c.st.cheatLogs ++ [cheatLogLine now] } } := by
  unfold checkFocus
  rw [if_pos h, hmc]
  simp only [if_neg hlt, if_true]

theorem checkFocus_warn_none_eq (td : TestData) (c : Ctrl) (now : Int)
    (h : c.status = .IN_PROGRESS) (hmc : maxCheat td = none) :
    checkFocus td c now true =
      { c with st := { c.st with
          cheatAttempts := c.st.cheatAttempts + 1,
          cheatLogs := c.st.cheatLogs ++ [cheatLogLine now] } } := by
  unfold checkFocus
  rw [if_pos h, hmc]
  simp only [if_true]

theorem foldl_prepInit_endTime (l : List Question) (st : SessionState) :
    (l.foldl prepInit st).endTime = st.endTime := by
  induction l generalizing st with
  | nil => rfl
  | cons q qs ih =>
    rw [List.foldl_cons, ih]
    rfl

theorem foldl_prepInit_isBlocked (l : List Question) (st : SessionState) :
    (l.foldl prepInit st).isBlocked = st.isBlocked := by
  induction l generalizing st with
  | nil => rfl
  | cons q qs ih =>
    rw [List.foldl_cons, ih]
    rfl

theorem foldl_prepInit_cheatAttempts (l : List Question) (st : SessionState) :
    (l.foldl prepInit st).cheatAttempts = st.cheatAttempts := by
  induction l generalizing st with
  | nil => rfl
  | cons q qs ih =>
    rw [List.foldl_cons, ih]
    rfl

theorem foldl_prepInit_cheatLogs (l : List Question) (st : SessionState) :
    (l.foldl prepInit st).cheatLogs = st.cheatLogs := by
  induction l generalizing st with
  | nil => rfl
  | cons q qs ih =>
    rw [List.foldl_cons, ih]
    rfl

theorem foldl_prepInit_questions (l : List Question) (st : SessionState) :
    (l.foldl prepInit st).questions = st.questions := by
  induction l generalizing st with
  | nil => rfl
  | cons q qs ih =>
    rw [List.foldl_cons, ih]
    rfl

theorem foldl_prepInit_maxScore (l : List Question) (st : SessionState) :
    (l.foldl prepInit st).maxScore = st.maxScore + (l.map Question.points).sum := by
  induction l generalizing st with
  | nil => simp
  | cons q qs ih =>
    rw [List.foldl_cons, ih]
    show st.maxScore + q.points + (qs.map Question.points).sum =
      st.maxScore + (q.points + (qs.map Question.points).sum)
    omega

theorem prepareQuestions_endTime (sh1 sh2 : List Question → List Question)
    (shOpts : List Opt → List Opt) (td : TestData) (reqIds : List String)
    (count : Nat) (s : SessionState) :
    (prepareQuestions sh1 sh2 shOpts td reqIds count s).endTime = s.endTime := by
  simp only [prepareQuestions, foldl_prepInit_endTime]

theorem prepareQuestions_isBlocked (sh1 sh2 : List Question → List Question)
    (shOpts : List Opt → List Opt) (td : TestData) (reqIds : List String)
    (count : Nat) (s : SessionState) :
    (prepareQuestions sh1 sh2 shOpts td reqIds count s).isBlocked = s.isBlocked := by
  simp only [prepareQuestions, foldl_prepInit_isBlocked]

theorem prepareQuestions_cheatAttempts (sh1 sh2 : List Question → List Question)
    (shOpts : List Opt → List Opt) (td : TestData) (reqIds : List String)
    (count : Nat) (s : SessionState) :
    (prepareQuestions sh1 sh2 shOpts td reqIds count s).cheatAttempts = s.cheatAttempts := by
  simp only [prepareQuestions, foldl_prepInit_cheatAttempts]

theorem prepareQuestions_cheatLogs (sh1 sh2 : List Question → List Question)
    (shOpts : List Opt → List Opt) (td : TestData) (reqIds : List String)
    (count : Nat) (s : SessionState) :
    (prepareQuestions sh1 sh2 shOpts td reqIds count s).cheatLogs = s.cheatLogs := by
  simp only [prepareQuestions, foldl_prepInit_cheatLogs]

theorem nextQuestion_endTime (s : SessionState) (now : Int) :
    (nextQuestion s now).endTime = s.endTime := by
  by_cases h : s.currentIndex < s.questions.length - 1
  · rw [nextQuestion_of_lt s now h]
    exact recordTime_endTime s now
  · rw [nextQuestion_of_last s now h]
    exact recordTime_endTime s now

theorem nextQuestion_isBlocked (s : SessionState) (now : Int) :
    (nextQuestion s now).isBlocked = s.isBlocked := by
  by_cases h : s.currentIndex < s.questions.length - 1
  · rw [nextQuestion_of_lt s now h]
    exact recordTime_isBlocked s now
  · rw [nextQuestion_of_last s now h]
    exact recordTime_isBlocked s now

theorem nextQuestion_cheatAttempts (s : SessionState) (now : Int) :
    (nextQuestion s now).cheatAttempts = s.cheatAttempts := by
  by_cases h : s.currentIndex < s.questions.length - 1
  · rw [nextQuestion_of_lt s now h]
    exact recordTime_cheatAttempts s now
  · rw [nextQuestion_of_last s now h]
    exact recordTime_cheatAttempts s now

theorem nextQuestion_cheatLogs (s : SessionState) (now : Int) :
    (nextQuestion s now).cheatLogs = s.cheatLogs := by
  by_cases h : s.currentIndex < s.questions.length - 1
  · rw [nextQuestion_of_lt s now h]
    exact recordTime_cheatLogs s now
  · rw [nextQuestion_of_last s now h]
    exact recordTime_cheatLogs s now

theorem prevQuestion_endTime (s : SessionState) (now : Int) :
    (prevQuestion s now).endTime = s.endTime := by
  by_cases h : 0 < s.currentIndex
  · rw [prevQuestion_of_pos s now h]
    exact recordTime_endTime s now
  · rw [prevQuestion_of_first s now h]
    exact recordTime_endTime s now

theorem prevQuestion_isBlocked (s : SessionState) (now : Int) :
    (prevQuestion s now).isBlocked = s.isBlocked := by
  by_cases h : 0 < s.currentIndex
  · rw [prevQuestion_of_pos s now h]
    exact recordTime_isBlocked s now
  · rw [prevQuestion_of_first s now h]
    exact recordTime_isBlocked s now

theorem prevQuestion_cheatAttempts (s : SessionState) (now : Int) :
    (prevQuestion s now).cheatAttempts = s.cheatAttempts := by
  by_cases h : 0 < s.currentIndex
  · rw [prevQuestion_of_pos s now h]
    exact recordTime_cheatAttempts s now
  · rw [prevQuestion_of_first s now h]
    exact recordTime_cheatAttempts s now

theorem prevQuestion_cheatLogs (s : SessionState) (now : Int) :
    (prevQuestion s now).cheatLogs = s.cheatLogs := by
  by_cases h : 0 < s.currentIndex
  · rw [prevQuestion_of_pos s now h]
    exact recordTime_cheatLogs s now
  · rw [prevQuestion_of_first s now h]
    exact recordTime_cheatLogs s now

/-! ## C4: lockout and completion time -/

/-- The lockout invariant under a fixed question set: a blocked state has
a stamped end time, and a violation counter at or above the configured
maximum also forces a stamped end time (the strengthening needed for the
mount-time retro-block step). -/
def LockoutInv (td : TestData) (s : SessionState) : Prop :=
  (s.isBlocked = true → 0 < s.endTime) ∧
  (∀ m, maxCheat td = some m → m ≤ s.cheatAttempts → 0 < s.endTime)

theorem maxCheat_pos (td : TestData) (m : Nat) (h : maxCheat td = some m) : 1 ≤ m := by
  rcases hn : td.max_cheat_attempts with _ | n
  · simp [maxCheat, hn] at h
  · simp only [maxCheat, hn] at h
    by_cases h0 : n = 0
    · simp [h0] at h
    · rw [if_neg h0] at h
      injection h with h
      omega

theorem lockoutInv_of_eq {td : TestData} {s t : SessionState}
    (hb : t.isBlocked = s.isBlocked) (he : t.endTime = s.endTime)
    (hc : t.cheatAttempts = s.cheatAttempts) (h : LockoutInv td s) : LockoutInv td t := by
  constructor
  · intro hbt
    rw [he]
    exact h.1 (hb ▸ hbt)
  · intro m hm hle
    rw [he]
    exact h.2 m hm (hc ▸ hle)

theorem lockoutInv_finishTest (env : Env) (td : TestData) (c : Ctrl) (now : Int)
    (h0 : 0 < now) : LockoutInv td (finishTest env td c now).st :=
  ⟨fun _ => by rw [finishTest_endTime]; exact h0,
   fun m hm hle => by rw [finishTest_endTime]; exact h0⟩

theorem lockoutInv_updateTimer (env : Env) (td : TestData) (c : Ctrl) (now : Int)
    (h0 : 0 < now) (h : LockoutInv td c.st) : LockoutInv td (updateTimer env td c now).st := by
  unfold updateTimer
  by_cases hs : c.status = .IN_PROGRESS
  · rw [if_pos hs]
    by_cases he : limitMs td - (now - c.st.startTime) ≤ 0
    · rw [if_pos he]
      exact lockoutInv_finishTest env td _ now h0
    · rw [if_neg he]
      exact h
  · rw [if_neg hs]
    exact h

theorem lockoutInv_startTest (env : Env) (td : TestData) (c : Ctrl) (now : Int)
    (h0 : 0 < now) (h : LockoutInv td c.st) : LockoutInv td (startTest env td c now).st := by
  unfold startTest
  exact lockoutInv_updateTimer env td _ now h0 (lockoutInv_of_eq rfl rfl rfl h)

theorem lockoutInv_checkFocus (td : TestData) (c : Ctrl) (now : Int) (viol : Bool)
    (h0 : 0 < now) (h : LockoutInv td c.st) : LockoutInv td (checkFocus td c now viol).st := by
  by_cases hs : c.status = .IN_PROGRESS
  · cases viol with
    | false =>
      rw [checkFocus_no_violation]
      exact h
    | true =>
      rcases hmc : maxCheat td with _ | m
      · rw [checkFocus_warn_none_eq td c now hs hmc]
        exact ⟨fun hb => h.1 hb, fun m' hm' _ => by rw [hmc] at hm'; cases hm'⟩
      · by_cases hge : m ≤ c.st.cheatAttempts + 1
        · rw [checkFocus_blocked_eq td c now m hs hmc hge]
          exact ⟨fun _ => h0, fun _ _ _ => h0⟩
        · rw [checkFocus_warn_some_eq td c now m hs hmc hge]
          refine ⟨fun hb => h.1 hb, ?_⟩
          intro m' hm' hle
          rw [hmc] at hm'
          injection hm' with hm'
          subst hm'
          exact absurd hle hge
  · rw [checkFocus_not_in_progress td c now viol hs]
    exact h

theorem lockoutInv_retroBlock (td : TestData) (saved : SessionState)
    (h : LockoutInv td saved) : LockoutInv td (retroBlock td saved) := by
  unfold retroBlock
  rcases hmc : maxCheat td with _ | m
  · exact h
  · show LockoutInv td
      (if m ≤ saved.cheatAttempts then { saved with isBlocked := true } else saved)
    by_cases hge : m ≤ saved.cheatAttempts
    · rw [if_pos hge]
      have hend := h.2 m hmc hge
      exact ⟨fun _ => hend, fun m' hm' _ => hend⟩
    · rw [if_neg hge]
      exact h

theorem lockoutInv_mountDispatch (env : Env) (td : TestData) (st : SessionState) (now : Int)
    (h0 : 0 < now) (h : LockoutInv td st) : LockoutInv td (mountDispatch env td st now).st := by
  unfold mountDispatch
  by_cases h1 : st.isBlocked
  · rw [if_pos h1]
    exact h
  · rw [if_neg h1]
    by_cases h2 : (0 : Int) < st.endTime
    · rw [if_pos h2]
      exact h
    · rw [if_neg h2]
      by_cases h3 : (0 : Int) < st.startTime
      · rw [if_pos h3]
        exact lockoutInv_updateTimer env td _ now h0 h
      · rw [if_neg h3]
        exact h

theorem lockoutInv_mountSaved (env : Env) (td : TestData) (saved : SessionState) (now : Int)
    (h0 : 0 < now) (h : LockoutInv td saved) : LockoutInv td (mountSaved env td saved now).st :=
  lockoutInv_mountDispatch env td (retroBlock td saved) now h0 (lockoutInv_retroBlock td saved h)

theorem lockoutInv_mountFresh (sh1 sh2 : List Question → List Question)
    (shOpts : List Opt → List Opt) (td : TestData) (reqIds : List String) (count : Nat) :
    LockoutInv td (mountFresh sh1 sh2 shOpts td reqIds count).st := by
  constructor
  · intro hb
    have hb' : (prepareQuestions sh1 sh2 shOpts td reqIds count initialState).isBlocked = true := hb
    rw [prepareQuestions_isBlocked] at hb'
    cases hb'
  · intro m hm hle
    have h1 := maxCheat_pos td m hm
    have hle' : m ≤ (prepareQuestions sh1 sh2 shOpts td reqIds count initialState).cheatAttempts :=
      hle
    rw [prepareQuestions_cheatAttempts] at hle'
    have h2 : initialState.cheatAttempts = 0 := rfl
    rw [h2] at hle'
    omega

theorem reachable_lockoutInv (env : Env) (td : TestData) (c : Ctrl)
    (h : Reachable env td c) : LockoutInv td c.st := by
  induction h with
  | fresh sh1 sh2 shOpts reqIds count => exact lockoutInv_mountFresh sh1 sh2 shOpts td reqIds count
  | mount c now _ h0 ih => exact lockoutInv_mountSaved env td c.st now h0 ih
  | start c now _ _ h0 ih => exact lockoutInv_startTest env td c now h0 ih
  | next c now _ _ ih =>
    exact lockoutInv_of_eq (nextQuestion_isBlocked _ _) (nextQuestion_endTime _ _)
      (nextQuestion_cheatAttempts _ _) ih
  | prev c now _ _ ih =>
    exact lockoutInv_of_eq (prevQuestion_isBlocked _ _) (prevQuestion_endTime _ _)
      (prevQuestion_cheatAttempts _ _) ih
  | focus c now viol _ h0 ih => exact lockoutInv_checkFocus td c now viol h0 ih
  | finish c now _ _ h0 _ => exact lockoutInv_finishTest env td c now h0
  | tick c now _ h0 ih => exact lockoutInv_updateTimer env td c now h0 ih
  | showBlocked c _ _ _ ih => exact ih
  | showReport c _ _ _ ih => exact ih
  | closeReport c _ _ ih => exact ih
  | closeBlocked c _ _ ih => exact ih

/-- **C4 (amended).** Under one fixed question-set configuration,
`lockout = true` implies `endTime > 0` in every reachable controller
state — after a fresh mount, after rehydrating any state this controller
persisted, and after every operation.  (As the counterexample shows, the
claim as stated additionally fails exactly when the stored violation
counter already meets a `max_cheat_attempts` limit that was introduced or
lowered after the state was persisted: the mount-time retro-block then
sets the lockout flag while `endTime` stays 0.) -/
theorem lockout_implies_finished (env : Env) (td : TestData) (c : Ctrl)
    (h : Reachable env td c) (hb : c.st.isBlocked = true) : 0 < c.st.endTime :=
  (reachable_lockoutInv env td c h).1 hb

/-- The identity shuffles used by the concrete runs (a permutation, as
`sort` with a random comparator always is). -/
def idShuffle : List Question → List Question := fun l => l

def idShuffleOpts : List Opt → List Opt := fun l => l

/-- A fresh mount of the demo question set. -/
def demoFreshRun : Ctrl := mountFresh idShuffle idShuffle idShuffleOpts demoTd [] 1

/-- A session started under `demoTd` (which has no cheat limit) with
three focus-loss violations: counter 3, no lockout, `endTime = 0`. -/
def demoCheatedRun : Ctrl :=
  checkFocus demoTd
    (checkFocus demoTd
      (checkFocus demoTd (startTest demoEnv demoTd demoFreshRun 1) 2 true) 3 true) 4 true

/-- The demo question set with a cheat limit of 2 — the same document
after its author tightened `max_cheat_attempts`. -/
def demoTd2 : TestData := { demoTd with max_cheat_attempts := some 2 }

/-- **C4 (counterexample).** The state persisted by a real run (reachable
under `demoTd`, three violations, unlimited attempts, still unfinished),
rehydrated after the configuration's `max_cheat_attempts` became 2, is
retro-blocked by the mount path: `lockout = true` while `endTime = 0`,
violating "lockout ⇒ endTime > 0" after rehydration. -/
theorem lockout_without_endTime_counterexample :
    Reachable demoEnv demoTd demoCheatedRun ∧
    (mountSaved demoEnv demoTd2 demoCheatedRun.st 7).st.isBlocked = true ∧
    (mountSaved demoEnv demoTd2 demoCheatedRun.st 7).st.endTime = 0 := by
  refine ⟨?_, by decide, by decide⟩
  exact Reachable.focus _ 4 true
    (Reachable.focus _ 3 true
      (Reachable.focus _ 2 true
        (Reachable.start _ 1 (Reachable.fresh _ _ _ _ _) rfl (by decide)) (by decide))
      (by decide))
    (by decide)

/-- A run under `demoTd2` (limit 2) blocked by two violations. -/
def demoBlockedRun : Ctrl :=
  checkFocus demoTd2
    (checkFocus demoTd2
      (startTest demoEnv demoTd2 (mountFresh idShuffle idShuffle idShuffleOpts demoTd2 [] 1) 1)
      2 true)
    3 true

/-- Witness for C4's amended statement: the blocked fixed-config run has
`lockout = true` and a positive `endTime`. -/
theorem lockout_implies_finished_witness :
    demoBlockedRun.st.isBlocked = true ∧ 0 < demoBlockedRun.st.endTime := by
  have hreach : Reachable demoEnv demoTd2 demoBlockedRun :=
    Reachable.focus _ 3 true
      (Reachable.focus _ 2 true
        (Reachable.start _ 1 (Reachable.fresh _ _ _ _ _) rfl (by decide)) (by decide))
      (by decide)
  exact ⟨by decide, lockout_implies_finished demoEnv demoTd2 demoBlockedRun hreach (by decide)⟩

/-! ## C10: the violation counter equals the violation-log length -/

theorem finishTest_cheatAttempts (env : Env) (td : TestData) (c : Ctrl) (now : Int) :
    (finishTest env td c now).st.cheatAttempts = c.st.cheatAttempts := by
  show (recordTime c.st now).cheatAttempts = c.st.cheatAttempts
  exact recordTime_cheatAttempts c.st now

theorem finishTest_cheatLogs (env : Env) (td : TestData) (c : Ctrl) (now : Int) :
    (finishTest env td c now).st.cheatLogs = c.st.cheatLogs := by
  show (recordTime c.st now).cheatLogs = c.st.cheatLogs
  exact recordTime_cheatLogs c.st now

theorem updateTimer_cheatAttempts (env : Env) (td : TestData) (c : Ctrl) (now : Int) :
    (updateTimer env td c now).st.cheatAttempts = c.st.cheatAttempts := by
  unfold updateTimer
  by_cases hs : c.status = .IN_PROGRESS
  · rw [if_pos hs]
    by_cases he : limitMs td - (now - c.st.startTime) ≤ 0
    · rw [if_pos he]
      exact finishTest_cheatAttempts env td _ now
    · rw [if_neg he]
  · rw [if_neg hs]

theorem updateTimer_cheatLogs (env : Env) (td : TestData) (c : Ctrl) (now : Int) :
    (updateTimer env td c now).st.cheatLogs = c.st.cheatLogs := by
  unfold updateTimer
  by_cases hs : c.status = .IN_PROGRESS
  · rw [if_pos hs]
    by_cases he : limitMs td - (now - c.st.startTime) ≤ 0
    · rw [if_pos he]
      exact finishTest_cheatLogs env td _ now
    · rw [if_neg he]
  · rw [if_neg hs]

theorem startTest_cheatAttempts (env : Env) (td : TestData) (c : Ctrl) (now : Int) :
    (startTest env td c now).st.cheatAttempts = c.st.cheatAttempts := by
  unfold startTest
  exact updateTimer_cheatAttempts env td _ now

theorem startTest_cheatLogs (env : Env) (td : TestData) (c : Ctrl) (now : Int) :
    (startTest env td c now).st.cheatLogs = c.st.cheatLogs := by
  unfold startTest
  exact updateTimer_cheatLogs env td _ now

theorem retroBlock_cheatAttempts (td : TestData) (saved : SessionState) :
    (retroBlock td saved).cheatAttempts = saved.cheatAttempts := by
  unfold retroBlock
  rcases hmc : maxCheat td with _ | m
  · rfl
  · show (if m ≤ saved.cheatAttempts then { saved with isBlocked := true } else saved).cheatAttempts
      = saved.cheatAttempts
    by_cases hge : m ≤ saved.cheatAttempts
    · rw [if_pos hge]
    · rw [if_neg hge]

theorem retroBlock_cheatLogs (td : TestData) (saved : SessionState) :
    (retroBlock td saved).cheatLogs = saved.cheatLogs := by
  unfold retroBlock
  rcases hmc : maxCheat td with _ | m
  · rfl
  · show (if m ≤ saved.cheatAttempts then { saved with isBlocked := true } else saved).cheatLogs
      = saved.cheatLogs
    by_cases hge : m ≤ saved.cheatAttempts
    · rw [if_pos hge]
    · rw [if_neg hge]

theorem mountDispatch_cheatAttempts (env : Env) (td : TestData) (st : SessionState) (now : Int) :
    (mountDispatch env td st now).st.cheatAttempts = st.cheatAttempts := by
  unfold mountDispatch
  by_cases h1 : st.isBlocked
  · rw [if_pos h1]
  · rw [if_neg h1]
    by_cases h2 : (0 : Int) < st.endTime
    · rw [if_pos h2]
    · rw [if_neg h2]
      by_cases h3 : (0 : Int) < st.startTime
      · rw [if_pos h3]
        exact updateTimer_cheatAttempts env td _ now
      · rw [if_neg h3]

theorem mountDispatch_cheatLogs (env : Env) (td : TestData) (st : SessionState) (now : Int) :
    (mountDispatch env td st now).st.cheatLogs = st.cheatLogs := by
  unfold mountDispatch
  by_cases h1 : st.isBlocked
  · rw [if_pos h1]
  · rw [if_neg h1]
    by_cases h2 : (0 : Int) < st.endTime
    · rw [if_pos h2]
    · rw [if_neg h2]
      by_cases h3 : (0 : Int) < st.startTime
      · rw [if_pos h3]
        exact updateTimer_cheatLogs env td _ now
      · rw [if_neg h3]

theorem mountSaved_cheatAttempts (env : Env) (td : TestData) (saved : SessionState) (now : Int) :
    (mountSaved env td saved now).st.cheatAttempts = saved.cheatAttempts := by
  unfold mountSaved
  rw [mountDispatch_cheatAttempts, retroBlock_cheatAttempts]

theorem mountSaved_cheatLogs (env : Env) (td : TestData) (saved : SessionState) (now : Int) :
    (mountSaved env td saved now).st.cheatLogs = saved.cheatLogs := by
  unfold mountSaved
  rw [mountDispatch_cheatLogs, retroBlock_cheatLogs]

theorem checkFocus_violation_effect (td : TestData) (c : Ctrl) (now : Int)
    (h : c.status = .IN_PROGRESS) :
    (checkFocus td c now true).st.cheatAttempts = c.st.cheatAttempts + 1 ∧
    (checkFocus td c now true).st.cheatLogs = c.st.cheatLogs ++ [cheatLogLine now] := by
  rcases hmc : maxCheat td with _ | m
  · rw [checkFocus_warn_none_eq td c now h hmc]
    exact ⟨rfl, rfl⟩
  · by_cases hge : m ≤ c.st.cheatAttempts + 1
    · rw [checkFocus_blocked_eq td c now m h hmc hge]
      exact ⟨rfl, rfl⟩
    · rw [checkFocus_warn_some_eq td c now m h hmc hge]
      exact ⟨rfl, rfl⟩

theorem cheatInv_checkFocus (td : TestData) (c : Ctrl) (now : Int) (viol : Bool)
    (h : c.st.cheatAttempts = c.st.cheatLogs.length) :
    (checkFocus td c now viol).st.cheatAttempts = (checkFocus td c now viol).st.cheatLogs.length := by
  by_cases hs : c.status = .IN_PROGRESS
  · cases viol with
    | false =>
      rw [checkFocus_no_violation]
      exact h
    | true =>
      have he := checkFocus_violation_effect td c now hs
      rw [he.1, he.2, List.length_append, List.length_singleton, h]
  · rw [checkFocus_not_in_progress td c now viol hs]
    exact h

theorem reachable_cheatInv (env : Env) (td : TestData) (c : Ctrl)
    (h : Reachable env td c) : c.st.cheatAttempts = c.st.cheatLogs.length := by
  induction h with
  | fresh sh1 sh2 shOpts reqIds count =>
    show (prepareQuestions sh1 sh2 shOpts td reqIds count initialState).cheatAttempts =
      (prepareQuestions sh1 sh2 shOpts td reqIds count initialState).cheatLogs.length
    rw [prepareQuestions_cheatAttempts, prepareQuestions_cheatLogs]
    rfl
  | mount c now _ _ ih =>
    rw [mountSaved_cheatAttempts, mountSaved_cheatLogs]
    exact ih
  | start c now _ _ _ ih =>
    rw [startTest_cheatAttempts, startTest_cheatLogs]
    exact ih
  | next c now _ _ ih =>
    show (nextQuestion c.st now).cheatAttempts = (nextQuestion c.st now).cheatLogs.length
    rw [nextQuestion_cheatAttempts, nextQuestion_cheatLogs]
    exact ih
  | prev c now _ _ ih =>
    show (prevQuestion c.st now).cheatAttempts = (prevQuestion c.st now).cheatLogs.length
    rw [prevQuestion_cheatAttempts, prevQuestion_cheatLogs]
    exact ih
  | focus c now viol _ _ ih => exact cheatInv_checkFocus td c now viol ih
  | finish c now _ _ _ ih =>
    rw [finishTest_cheatAttempts, finishTest_cheatLogs]
    exact ih
  | tick c now _ _ ih =>
    rw [updateTimer_cheatAttempts, updateTimer_cheatLogs]
    exact ih
  | showBlocked c _ _ _ ih => exact ih
  | showReport c _ _ _ ih => exact ih
  | closeReport c _ _ ih => exact ih
  | closeBlocked c _ _ ih => exact ih

/-- **C10.** In every reachable controller state the violation counter
equals the length of the violation log; each detected violation (focus
loss while in progress) appends exactly one timestamped line and
increments the counter by exactly one (in both the warn and the lockout
branch), `checkFocus` outside an in-progress session or without a
violation is a no-op, and no other operation — start, navigation, finish,
timer tick, or mounting — changes either field. -/
theorem cheat_counter_matches_logs (env : Env) (td : TestData) :
    (∀ c : Ctrl, Reachable env td c → c.st.cheatAttempts = c.st.cheatLogs.length) ∧
    (∀ (c : Ctrl) (now : Int), c.status = .IN_PROGRESS →
      (checkFocus td c now true).st.cheatAttempts = c.st.cheatAttempts + 1 ∧
      (checkFocus td c now true).st.cheatLogs = c.st.cheatLogs ++ [cheatLogLine now]) ∧
    (∀ (c : Ctrl) (now : Int), ¬ c.status = .IN_PROGRESS → checkFocus td c now true = c) ∧
    (∀ (c : Ctrl) (now : Int), checkFocus td c now false = c) ∧
    (∀ (s : SessionState) (now : Int),
      (nextQuestion s now).cheatAttempts = s.cheatAttempts ∧
      (nextQuestion s now).cheatLogs = s.cheatLogs ∧
      (prevQuestion s now).cheatAttempts = s.cheatAttempts ∧
      (prevQuestion s now).cheatLogs = s.cheatLogs) ∧
    (∀ (c : Ctrl) (now : Int),
      (startTest env td c now).st.cheatAttempts = c.st.cheatAttempts ∧
      (startTest env td c now).st.cheatLogs = c.st.cheatLogs ∧
      (finishTest env td c now).st.cheatAttempts = c.st.cheatAttempts ∧
      (finishTest env td c now).st.cheatLogs = c.st.cheatLogs ∧
      (updateTimer env td c now).st.cheatAttempts = c.st.cheatAttempts ∧
      (updateTimer env td c now).st.cheatLogs = c.st.cheatLogs) ∧
    (∀ (saved : SessionState) (now : Int),
      (mountSaved env td saved now).st.cheatAttempts = saved.cheatAttempts ∧
      (mountSaved env td saved now).st.cheatLogs = saved.cheatLogs) :=
  ⟨fun c h => reachable_cheatInv env td c h,
   fun c now h => checkFocus_violation_effect td c now h,
   fun c now h => checkFocus_not_in_progress td c now true h,
   fun c now => checkFocus_no_violation td c now,
   fun s now => ⟨nextQuestion_cheatAttempts s now, nextQuestion_cheatLogs s now,
     prevQuestion_cheatAttempts s now, prevQuestion_cheatLogs s now⟩,
   fun c now => ⟨startTest_cheatAttempts env td c now, startTest_cheatLogs env td c now,
     finishTest_cheatAttempts env td c now, finishTest_cheatLogs env td c now,
     updateTimer_cheatAttempts env td c now, updateTimer_cheatLogs env td c now⟩,
   fun saved now => ⟨mountSaved_cheatAttempts env td saved now,
     mountSaved_cheatLogs env td saved now⟩⟩

/-- Witness for C10: the counter/log equality evaluated on the concrete
blocked run (two violations), and the one-violation effect on the
started demo session. -/
theorem cheat_counter_matches_logs_witness :
    demoBlockedRun.st.cheatAttempts = demoBlockedRun.st.cheatLogs.length ∧
    (checkFocus demoTd demoInProgress 2 true).st.cheatAttempts =
      demoInProgress.st.cheatAttempts + 1 ∧
    (checkFocus demoTd demoInProgress 2 true).st.cheatLogs =
      demoInProgress.st.cheatLogs ++ [cheatLogLine 2] := by
  have h1 := (cheat_counter_matches_logs demoEnv demoTd2).1 demoBlockedRun
    (Reachable.focus _ 3 true
      (Reachable.focus _ 2 true
        (Reachable.start _ 1 (Reachable.fresh idShuffle idShuffle idShuffleOpts [] 1) rfl
          (by decide))
        (by decide))
      (by decide))
  have h2 := (cheat_counter_matches_logs demoEnv demoTd).2.1 demoInProgress 2 rfl
  exact ⟨h1, h2.1, h2.2⟩

/-! ## C7: properties of the question selection -/

theorem mem_eraseP_of_not {α : Type} {p : α → Bool} {x : α} {l : List α}
    (hx : x ∈ l) (hp : ¬ p x = true) : x ∈ l.eraseP p := by
  induction l with
  | nil => cases hx
  | cons a as ih =>
    by_cases ha : p a = true
    · rw [List.eraseP_cons_of_pos ha]
      rcases List.mem_cons.mp hx with rfl | hmem
      · exact absurd ha hp
      · exact hmem
    · rw [List.eraseP_cons_of_neg (by simpa using ha)]
      rcases List.mem_cons.mp hx with rfl | hmem
      · exact List.mem_cons_self _ _
      · exact List.mem_cons_of_mem _ (ih hmem)

theorem perm_cons_eraseP_of_find {α : Type} {p : α → Bool} {l : List α} {q : α}
    (h : l.find? p = some q) : l.Perm (q :: l.eraseP p) := by
  induction l with
  | nil => cases h
  | cons a as ih =>
    by_cases ha : p a = true
    · rw [List.find?_cons_of_pos _ ha] at h
      injection h with h
      subst h
      rw [List.eraseP_cons_of_pos ha]
    · rw [List.find?_cons_of_neg _ (by simpa using ha)] at h
      rw [List.eraseP_cons_of_neg (by simpa using ha)]
      exact ((ih h).cons a).trans (List.Perm.swap q a _)

theorem pickRequired_perm (ids : List String) (pool : List Question) :
    ((pickRequired ids pool).1 ++ (pickRequired ids pool).2).Perm pool := by
  induction ids generalizing pool with
  | nil => exact List.Perm.refl _
  | cons i ids ih =>
    unfold pickRequired
    cases hf : pool.find? (fun q => q.id == i) with
    | none => exact ih pool
    | some q =>
      exact (List.Perm.cons q (ih _)).trans (perm_cons_eraseP_of_find hf).symm

theorem pickRequired_length_add (ids : List String) (pool : List Question) :
    (pickRequired ids pool).1.length + (pickRequired ids pool).2.length = pool.length := by
  have h := (pickRequired_perm ids pool).length_eq
  rw [List.length_append] at h
  exact h

theorem pickRequired_mem (ids : List String) (i : String) :
    i ∈ ids → ∀ pool : List Question, (∃ q ∈ pool, q.id = i) →
      ∃ q ∈ (pickRequired ids pool).1, q.id = i := by
  induction ids with
  | nil =>
    intro hi
    cases hi
  | cons j ids ih =>
    intro hi pool hex
    unfold pickRequired
    cases hf : pool.find? (fun q => q.id == j) with
    | none =>
      rcases List.mem_cons.mp hi with rfl | hi'
      · exfalso
        obtain ⟨q, hq, hqi⟩ := hex
        have hnone := List.find?_eq_none.mp hf q hq
        rw [hqi] at hnone
        simp at hnone
      · exact ih hi' pool hex
    | some q =>
      by_cases hj : i = j
      · subst hj
        have hq : q.id = i := by
          have h1 := List.find?_some hf
          simpa using h1
        exact ⟨q, List.mem_cons_self _ _, hq⟩
      · rcases List.mem_cons.mp hi with rfl | hi'
        · exact absurd rfl hj
        · obtain ⟨q', hq', hq'i⟩ := hex
          have hq'p : ¬ ((q'.id == j) = true) := by
            rw [hq'i]
            simpa using hj
          have hmem : q' ∈ pool.eraseP (fun q => q.id == j) := mem_eraseP_of_not hq' hq'p
          obtain ⟨q'', h1, h2⟩ := ih hi' (pool.eraseP fun q => q.id == j) ⟨q', hmem, hq'i⟩
          exact ⟨q'', List.mem_cons_of_mem _ h1, h2⟩

theorem prepareQuestions_questions (sh1 sh2 : List Question → List Question)
    (shOpts : List Opt → List Opt) (td : TestData) (reqIds : List String)
    (count : Nat) (s : SessionState) :
    (prepareQuestions sh1 sh2 shOpts td reqIds count s).questions =
      (sh2 (selectedFor sh1 td reqIds count)).map
        (fun q => { q with options := shOpts q.options }) := by
  simp only [prepareQuestions, foldl_prepInit_questions]

theorem prepareQuestions_maxScore (sh1 sh2 : List Question → List Question)
    (shOpts : List Opt → List Opt) (td : TestData) (reqIds : List String)
    (count : Nat) (s : SessionState) :
    (prepareQuestions sh1 sh2 shOpts td reqIds count s).maxScore =
      s.maxScore + ((sh2 (selectedFor sh1 td reqIds count)).map Question.points).sum := by
  simp only [prepareQuestions, foldl_prepInit_maxScore]

/-- **C7 (amended).** For any permutation shuffles and a question pool
with pairwise-distinct ids: every required id that matches a pool
question appears in the selection (ids with no match are skipped
silently); the selection length is `max m (min count available)` where
`m` is the number of matched required ids — this is `min count available`
whenever `m ≤ count`, but when more required questions are matched than
`count` they are all kept; the selected ids are pairwise distinct; and
`maxScore` grows by exactly the sum of the selected questions' point
values, one contribution per question. -/
theorem selection_properties (sh1 sh2 : List Question → List Question)
    (shOpts : List Opt → List Opt) (td : TestData) (reqIds : List String)
    (count : Nat) (s : SessionState)
    (hsh1 : ∀ l, (sh1 l).Perm l) (hsh2 : ∀ l, (sh2 l).Perm l)
    (hnodup : (td.questions.map Question.id).Nodup) :
    (∀ rid ∈ reqIds, (∃ q ∈ td.questions, q.id = rid) →
      ∃ q ∈ (prepareQuestions sh1 sh2 shOpts td reqIds count s).questions, q.id = rid) ∧
    (prepareQuestions sh1 sh2 shOpts td reqIds count s).questions.length =
      max (pickRequired reqIds td.questions).1.length (min count td.questions.length) ∧
    ((prepareQuestions sh1 sh2 shOpts td reqIds count s).questions.map Question.id).Nodup ∧
    (prepareQuestions sh1 sh2 shOpts td reqIds count s).maxScore =
      s.maxScore +
        ((prepareQuestions sh1 sh2 shOpts td reqIds count s).questions.map
          Question.points).sum := by
  have hlen := pickRequired_length_add reqIds td.questions
  have hperm := pickRequired_perm reqIds td.questions
  refine ⟨?_, ?_, ?_, ?_⟩
  · intro rid hrid hex
    obtain ⟨q, hq1, hq2⟩ := pickRequired_mem reqIds rid hrid td.questions hex
    have hq_sel : q ∈ selectedFor sh1 td reqIds count := by
      unfold selectedFor
      by_cases hc : (pickRequired reqIds td.questions).1.length < count
      · rw [if_pos hc]
        exact List.mem_append_left _ hq1
      · rw [if_neg hc]
        exact hq1
    have hq_sel2 : q ∈ sh2 (selectedFor sh1 td reqIds count) :=
      ((hsh2 _).mem_iff).mpr hq_sel
    refine ⟨{ q with options := shOpts q.options }, ?_, hq2⟩
    rw [prepareQuestions_questions]
    exact List.mem_map_of_mem _ hq_sel2
  · rw [prepareQuestions_questions, List.length_map, (hsh2 _).length_eq]
    unfold selectedFor
    by_cases hc : (pickRequired reqIds td.questions).1.length < count
    · rw [if_pos hc, List.length_append, List.length_take, (hsh1 _).length_eq]
      omega
    · rw [if_neg hc]
      omega
  · rw [prepareQuestions_questions, List.map_map]
    have hcomp : Question.id ∘ (fun q : Question => { q with options := shOpts q.options }) =
        Question.id := funext fun q => rfl
    rw [hcomp]
    have h1 := (hsh2 (selectedFor sh1 td reqIds count)).map Question.id
    rw [h1.nodup_iff]
    have hsub : (selectedFor sh1 td reqIds count).Sublist
        ((pickRequired reqIds td.questions).1 ++ sh1 (pickRequired reqIds td.questions).2) := by
      unfold selectedFor
      by_cases hc : (pickRequired reqIds td.questions).1.length < count
      · rw [if_pos hc]
        exact List.Sublist.append_left (List.take_sublist _ _) _
      · rw [if_neg hc]
        exact List.sublist_append_left _ _
    have h2 := (List.Perm.append_left (pickRequired reqIds td.questions).1
      (hsh1 (pickRequired reqIds td.questions).2)).map Question.id
    have h3 := hperm.map Question.id
    have hnodup2 :
        (((pickRequired reqIds td.questions).1 ++
          sh1 (pickRequired reqIds td.questions).2).map Question.id).Nodup :=
      ((h2.trans h3).nodup_iff).mpr hnodup
    exact hnodup2.sublist (hsub.map Question.id)
  · rw [prepareQuestions_maxScore, prepareQuestions_questions, List.map_map]
    have hcomp : Question.points ∘ (fun q : Question => { q with options := shOpts q.options }) =
        Question.points := funext fun q => rfl
    rw [hcomp]

/-- A three-question pool with ids `a`, `b`, `c`. -/
def demoTd3 : TestData :=
  { demoTd with questions :=
      [{ demoMcQ with id := "a" }, { demoMcQ with id := "b" }, { demoMcQ with id := "c" }] }

/-- **C7 (counterexample).** Two failures of the claim as stated, with
identity shuffles: (i) a required id that matches no pool question
(`"zz"` against the one-question pool) is silently skipped, so not every
required id is included; (ii) with three required (and matched) questions
but `count = 2`, the selection keeps all three, so its length is 3, not
`min(count, available) = 2`. -/
theorem selection_counterexample :
    (¬ ∃ q ∈ (prepareQuestions idShuffle idShuffle idShuffleOpts demoTd ["zz"] 1
        initialState).questions, q.id = "zz") ∧
    (prepareQuestions idShuffle idShuffle idShuffleOpts demoTd3 ["a", "b", "c"] 2
        initialState).questions.length = 3 ∧
    min 2 demoTd3.questions.length = 2 := by
  refine ⟨by decide, by decide, by decide⟩

/-- Witness for C7's amended statement: the three-question pool with
required ids `a` and `c` and `count = 3`, under identity shuffles. -/
theorem selection_properties_witness :
    (∃ q ∈ (prepareQuestions idShuffle idShuffle idShuffleOpts demoTd3 ["a", "c"] 3
        initialState).questions, q.id = "a") ∧
    (prepareQuestions idShuffle idShuffle idShuffleOpts demoTd3 ["a", "c"] 3
        initialState).questions.length =
      max (pickRequired ["a", "c"] demoTd3.questions).1.length
        (min 3 demoTd3.questions.length) ∧
    ((prepareQuestions idShuffle idShuffle idShuffleOpts demoTd3 ["a", "c"] 3
        initialState).questions.map Question.id).Nodup ∧
    (prepareQuestions idShuffle idShuffle idShuffleOpts demoTd3 ["a", "c"] 3
        initialState).maxScore =
      initialState.maxScore +
        ((prepareQuestions idShuffle idShuffle idShuffleOpts demoTd3 ["a", "c"] 3
          initialState).questions.map Question.points).sum := by
  have h := selection_properties idShuffle idShuffle idShuffleOpts demoTd3 ["a", "c"] 3
    initialState (fun l => List.Perm.refl l) (fun l => List.Perm.refl l) (by decide)
  exact ⟨h.1 "a" (by decide) ⟨{ demoMcQ with id := "a" }, by decide, rfl⟩, h.2.1, h.2.2.1, h.2.2.2⟩

end Books
